import Mathlib

/-!
Verification of the double-probing self-attention repository
(`src/core/model.py`) against its specification.

Modelling conventions (shallow embedding):
* Tensor values are rational numbers (`ℚ`); a hidden-state tensor of shape
  (batch, seq_len, hidden_size) is a `List (List (List ℚ))`, a pooled
  (batch, hidden_size) tensor is a `List (List ℚ)`, and token-id /
  attention-mask tensors of shape (batch, seq_len) are `List (List ℤ)`.
* Library modules whose internals are not part of this repository (the
  pretrained base / cross transformer stacks and the dropout module) are
  abstract function fields of the model structure; the repository's own
  orchestration (`DpsaModel.forward`, `DpsaLightningModule`) is translated
  statement by statement from the source.
* The `nn.GRU` reducer is embedded with its documented recurrence made
  explicit (per-layer recurrent scan, inter-layer dropout on every layer
  except the last, output sequence = top layer's states), with the GRU cell
  equations written out over abstract activation functions, because the
  claims about the reducer concern its recurrence structure and shapes.
-/

/-- A feature vector (one position's hidden state, or a pooled vector). -/
abbrev Vec := List ℚ

/-- One example's hidden-state sequence: shape (seq_len, hidden_size). -/
abbrev HSeq := List Vec

/-- A batched hidden-state tensor: shape (batch, seq_len, hidden_size). -/
abbrev Tensor3 := List HSeq

/-- A batched token-id or attention-mask tensor: shape (batch, seq_len). -/
abbrev IdsT := List (List ℤ)

/-- Dot product of two feature vectors. -/
def dot (a b : Vec) : ℚ := (List.zipWith (· * ·) a b).sum

/-- Matrix–vector product; the matrix is a list of rows. -/
def matVec (w : List Vec) (x : Vec) : Vec := w.map (fun r => dot r x)

/-- Elementwise sum of two vectors. -/
def vadd (a b : Vec) : Vec := List.zipWith (· + ·) a b

/-- Elementwise (Hadamard) product of two vectors. -/
def vmul (a b : Vec) : Vec := List.zipWith (· * ·) a b

/-- Parameters of one `nn.GRU` layer: input, recurrent weights and biases for
the reset (`r`), update (`z`) and new (`n`) gates. -/
structure GRUCellP where
  w_ir : List Vec
  w_hr : List Vec
  w_iz : List Vec
  w_hz : List Vec
  w_inp : List Vec
  w_hn : List Vec
  b_ir : Vec
  b_hr : Vec
  b_iz : Vec
  b_hz : Vec
  b_inp : Vec
  b_hn : Vec
  deriving DecidableEq

/-- GRU reset gate: `r = sg(W_ir x + b_ir + W_hr h + b_hr)` where `sg` is
the (abstract) sigmoid. -/
def gruGateR (sg : ℚ → ℚ) (c : GRUCellP) (h x : Vec) : Vec :=
  (vadd (vadd (matVec c.w_ir x) c.b_ir) (vadd (matVec c.w_hr h) c.b_hr)).map sg

/-- GRU update gate: `z = sg(W_iz x + b_iz + W_hz h + b_hz)`. -/
def gruGateZ (sg : ℚ → ℚ) (c : GRUCellP) (h x : Vec) : Vec :=
  (vadd (vadd (matVec c.w_iz x) c.b_iz) (vadd (matVec c.w_hz h) c.b_hz)).map sg

/-- GRU candidate state: `n = th(W_in x + b_in + r ⊙ (W_hn h + b_hn))`
where `th` is the (abstract) tanh. -/
def gruGateN (sg th : ℚ → ℚ) (c : GRUCellP) (h x : Vec) : Vec :=
  (vadd (vadd (matVec c.w_inp x) c.b_inp)
    (vmul (gruGateR sg c h x) (vadd (matVec c.w_hn h) c.b_hn))).map th

/-- One GRU cell step (PyTorch's documented equations):
`h' = (1 − z) ⊙ n + z ⊙ h`. -/
def gruCellStep (sg th : ℚ → ℚ) (c : GRUCellP) (h x : Vec) : Vec :=
  vadd (vmul ((gruGateZ sg c h x).map (fun q => 1 - q)) (gruGateN sg th c h x))
    (vmul (gruGateZ sg c h x) h)

/-- Run one recurrent layer over a sequence, emitting the state after each
step (the layer's output sequence). -/
def runLayer (step : Vec → Vec → Vec) : Vec → HSeq → HSeq
  | _, [] => []
  | h, x :: xs => step h x :: runLayer step (step h x) xs

/-- The state of a recurrent layer after consuming the whole sequence. -/
def layerFinal (step : Vec → Vec → Vec) (h0 : Vec) (xs : HSeq) : Vec :=
  xs.foldl step h0

/-- Run a stack of recurrent layers (`nn.GRU` with `num_layers` layers):
each layer's output feeds the next, inter-layer dropout `interDrop` is
applied to every layer's output except the last, and the stack's output is
the top layer's output sequence. -/
def runStack (interDrop : Vec → Vec) (h0 : Vec) : List (Vec → Vec → Vec) → HSeq → HSeq
  | [], xs => xs
  | [c], xs => runLayer c h0 xs
  | c :: c₂ :: cs, xs =>
      runStack interDrop h0 (c₂ :: cs) ((runLayer c h0 xs).map interDrop)

/-- The sequence fed to the top (last) layer of the stack. -/
def stackTopIn (interDrop : Vec → Vec) (h0 : Vec) : List (Vec → Vec → Vec) → HSeq → HSeq
  | [], xs => xs
  | [_], xs => xs
  | c :: c₂ :: cs, xs =>
      stackTopIn interDrop h0 (c₂ :: cs) ((runLayer c h0 xs).map interDrop)

/-- Python's `[:, -1, :]` on the (seq_len ≥ 1) output: the last element. -/
def lastStep (s : HSeq) : Vec := s.getLastD []

/-- The DPSA model (`DpsaModel` in `src/core/model.py`).  `base_model` and
`cross_model` are the two stacks returned by `slice_transformers` (library
transformer stacks, abstract here: `(input_ids, attention_mask) ↦
last_hidden_state` and `(hidden_states, encoder_hidden_states,
encoder_attention_mask) ↦ last_hidden_state`); `dropout` is the
`nn.Dropout` module (abstract); the reducer is the `nn.GRU` described
above; `linear_weight`/`linear_bias` are the classifier head. -/
structure DpsaModel where
  base_model : IdsT → IdsT → Tensor3
  cross_model : Tensor3 → Tensor3 → IdsT → Tensor3
  dropout : Tensor3 → Tensor3
  sigmaF : ℚ → ℚ
  tanhF : ℚ → ℚ
  gruCells : List GRUCellP
  gruInterDrop : Vec → Vec
  gruH0 : Vec
  linear_weight : List Vec
  linear_bias : Vec

/-- The reducer's per-example recurrent layers. -/
def DpsaModel.gruLayers (m : DpsaModel) : List (Vec → Vec → Vec) :=
  m.gruCells.map (gruCellStep m.sigmaF m.tanhF)

/-- `self.reducer(x)[0]`: the GRU output sequence, per batch example. -/
def DpsaModel.reducerOutput (m : DpsaModel) (t : Tensor3) : Tensor3 :=
  t.map (runStack m.gruInterDrop m.gruH0 m.gruLayers)

/-- `self.reducer(x)[0][:, -1, :]`: last-step pooling of the GRU output. -/
def DpsaModel.reducerPooled (m : DpsaModel) (t : Tensor3) : List Vec :=
  (m.reducerOutput t).map lastStep

/-- `nn.Linear` applied to one feature vector: `W x + b`. -/
def linearApply (w : List Vec) (b : Vec) (x : Vec) : Vec :=
  List.zipWith (fun r bi => dot r x + bi) w b

/-- `torch.cat([a, b], dim=-1)` on two (batch, hidden) tensors. -/
def catLast (a b : List Vec) : List Vec := List.zipWith (· ++ ·) a b

/-- The classifier head `self.linear`, applied rowwise to a batch. -/
def DpsaModel.classifierHead (m : DpsaModel) (t : List Vec) : List Vec :=
  t.map (linearApply m.linear_weight m.linear_bias)

/-- `DpsaModel.forward` (src/core/model.py lines 33–70), translated
statement by statement. -/
def DpsaModel.forward (m : DpsaModel)
    (premise_input_ids premise_attention_mask
     hypothesis_input_ids hypothesis_attention_mask : IdsT) : List Vec :=
  let premise_hidden_state := m.base_model premise_input_ids premise_attention_mask
  let hypothesis_hidden_state := m.base_model hypothesis_input_ids hypothesis_attention_mask
  let premise_hypothesis := m.cross_model premise_hidden_state hypothesis_hidden_state
    hypothesis_attention_mask
  let hypothesis_premise := m.cross_model hypothesis_hidden_state premise_hidden_state
    premise_attention_mask
  let premise_hypothesis₂ := m.dropout premise_hypothesis
  let hypothesis_premise₂ := m.dropout hypothesis_premise
  let premise_hypothesis_pooler := m.reducerPooled premise_hypothesis₂
  let hypothesis_premise_pooler := m.reducerPooled hypothesis_premise₂
  let output := catLast premise_hypothesis_pooler hypothesis_premise_pooler
  m.classifierHead output

/-- The pooled vector of one cross-attention direction: the query sequence
(`qIds`, `qMask`) attending to the key/value sequence (`kIds`, `kMask`),
dropped out and reduced — the common shape of the two directions inside
`forward`. -/
def DpsaModel.crossPooled (m : DpsaModel) (qIds qMask kIds kMask : IdsT) : List Vec :=
  m.reducerPooled (m.dropout
    (m.cross_model (m.base_model qIds qMask) (m.base_model kIds kMask) kMask))

/-- `forward` as a state transformer on the model: the source body of
`DpsaModel.forward` is a straight-line sequence of reads — it contains no
assignment to `self` or to any parameter tensor — so its statement-by-
statement translation threads the model value through unchanged and returns
it alongside the logits. -/
def DpsaModel.forwardRun (m : DpsaModel)
    (premise_input_ids premise_attention_mask
     hypothesis_input_ids hypothesis_attention_mask : IdsT) : List Vec × DpsaModel :=
  (m.forward premise_input_ids premise_attention_mask
     hypothesis_input_ids hypothesis_attention_mask, m)

/-- Well-formedness of one GRU layer's parameters for hidden size `hidden`:
every gate weight matrix has `hidden` rows and every bias has length
`hidden` — exactly what `nn.GRU(hidden_size, hidden_size, ...)` constructs. -/
def GRUCellP.wf (c : GRUCellP) (hidden : ℕ) : Prop :=
  c.w_ir.length = hidden ∧ c.w_hr.length = hidden ∧
  c.w_iz.length = hidden ∧ c.w_hz.length = hidden ∧
  c.w_inp.length = hidden ∧ c.w_hn.length = hidden ∧
  c.b_ir.length = hidden ∧ c.b_hr.length = hidden ∧
  c.b_iz.length = hidden ∧ c.b_hz.length = hidden ∧
  c.b_inp.length = hidden ∧ c.b_hn.length = hidden

/-- Well-formedness of the reducer: every layer's parameters fit hidden size
`hidden` and the initial state (PyTorch's default zeros of size `hidden`)
has length `hidden`. -/
def DpsaModel.reducerWF (m : DpsaModel) (hidden : ℕ) : Prop :=
  (∀ c ∈ m.gruCells, c.wf hidden) ∧ m.gruH0.length = hidden

/-! ### Shape-level semantics of the forward pass

The tensor values above do not carry shape constraints, so the shape
requirements that the underlying tensor library enforces during
`DpsaModel.forward` are modelled separately, as a shape checker that
mirrors the forward body's operations in source order.  A shape-mismatch
failure raised by any of these operations is the spec's `ShapeError`. -/

/-- Shape of a (batch, seq_len) id/mask tensor. -/
abbrev Shape2 := ℕ × ℕ

/-- Shape of a (batch, seq_len, hidden) hidden-state tensor. -/
abbrev Shape3 := ℕ × ℕ × ℕ

/-- The spec's `ShapeError`: mismatched dimensions between paired tensors. -/
inductive ShapeError where
  | mismatch : ShapeError
  deriving DecidableEq

/-- Broadcast-join of two tensor dimensions (PyTorch broadcasting): equal
sizes join to themselves, a size-1 dimension stretches to the other size,
and any other pair is a shape error. -/
def bjoin (a b : ℕ) : Option ℕ :=
  if a = b then some a else if a = 1 then some b else if b = 1 then some a else none

/-- Shape rule of a base-stack call `base_model(input_ids, attention_mask)`
under the library's broadcasting: the 2-d mask is extended to
`(mask_batch, 1, 1, mask_len)` and broadcast-added to the attention scores
`(ids_batch, heads, seq, seq)`, so the mask batch must broadcast-join the
ids batch, and the mask length must equal the key length or be 1; the
hidden states come out with the joined batch, the ids' sequence length and
`hidden` features. -/
def baseShape (hidden : ℕ) (ids mask : Shape2) : Except ShapeError Shape3 :=
  match bjoin ids.1 mask.1 with
  | none => .error .mismatch
  | some b =>
      if mask.2 = ids.2 ∨ mask.2 = 1 then .ok (b, ids.2, hidden)
      else .error .mismatch

/-- Shape rule of a cross-stack call
`cross_model(hidden_states=q, encoder_hidden_states=kv, encoder_attention_mask=kvMask)`
under the library's broadcasting: the attention scores `q @ kvᵀ`
broadcast-join the query and key/value batches (equal hidden sizes
required), the extended key/value mask `(mask_batch, 1, 1, mask_len)` must
broadcast-join that batch, and the mask length must equal the key/value
length or be 1 (a longer mask would stretch the score axis past the value
rows).  The output keeps the query's sequence length, with the joined
batch. -/
def crossShape (q kv : Shape3) (kvMask : Shape2) : Except ShapeError Shape3 :=
  if q.2.2 = kv.2.2 then
    match bjoin q.1 kv.1 with
    | none => .error .mismatch
    | some b1 =>
        match bjoin b1 kvMask.1 with
        | none => .error .mismatch
        | some b2 =>
            if kvMask.2 = kv.2.1 ∨ kvMask.2 = 1 then .ok (b2, q.2.1, q.2.2)
            else .error .mismatch
  else .error .mismatch

/-- Shape rule of `self.reducer(x)[0][:, -1, :]`: `nn.GRU(hidden, hidden)`
requires input feature size `hidden`, and the `-1` index requires a
non-empty sequence axis; the pooled result is (batch, hidden). -/
def reduceShape (hidden : ℕ) (t : Shape3) : Except ShapeError Shape2 :=
  if t.2.2 = hidden ∧ 1 ≤ t.2.1 then .ok (t.1, hidden) else .error .mismatch

/-- Shape rule of `torch.cat([a, b], dim=-1)` on (batch, features) tensors:
equal batch dimension, features add. -/
def catShape (a b : Shape2) : Except ShapeError Shape2 :=
  if a.1 = b.1 then .ok (a.1, a.2 + b.2) else .error .mismatch

/-- Shape rule of the classifier head `nn.Linear(2*hidden, num_class)`. -/
def linearShape (hidden numClass : ℕ) (x : Shape2) : Except ShapeError Shape2 :=
  if x.2 = 2 * hidden then .ok (x.1, numClass) else .error .mismatch

/-- The shape-level forward pass: the operations of `DpsaModel.forward`
(src/core/model.py lines 33–70) in source order, each applying its
library-enforced shape rule (dropout preserves shapes and imposes none). -/
def forwardShape (hidden numClass : ℕ)
    (premise_input_ids premise_attention_mask
     hypothesis_input_ids hypothesis_attention_mask : Shape2) :
    Except ShapeError Shape2 :=
  match baseShape hidden premise_input_ids premise_attention_mask with
  | .error e => .error e
  | .ok premise_hidden =>
  match baseShape hidden hypothesis_input_ids hypothesis_attention_mask with
  | .error e => .error e
  | .ok hypothesis_hidden =>
  match crossShape premise_hidden hypothesis_hidden hypothesis_attention_mask with
  | .error e => .error e
  | .ok premise_hypothesis =>
  match crossShape hypothesis_hidden premise_hidden premise_attention_mask with
  | .error e => .error e
  | .ok hypothesis_premise =>
  match reduceShape hidden premise_hypothesis with
  | .error e => .error e
  | .ok premise_pooler =>
  match reduceShape hidden hypothesis_premise with
  | .error e => .error e
  | .ok hypothesis_pooler =>
  match catShape premise_pooler hypothesis_pooler with
  | .error e => .error e
  | .ok catted => linearShape hidden numClass catted

/-! ### The transformer splitter -/

/-- The spec's `ConfigurationError` (§7): invalid pivot at construction. -/
inductive ConfigurationError where
  | invalidPivot : ConfigurationError
  deriving DecidableEq

/-- Modelled from the spec: `slice_transformers`, imported by
`src/core/model.py` from `.utils`, whose source file is not present under
`src/`.  Per spec §4.1 and §3, it partitions the pretrained encoder's layer
list at index `pivot` into `base_layers = layers[0:pivot)` and
`cross_layers = layers[pivot:end)`, and fails with `ConfigurationError`
when `pivot` is outside the valid range `0 < pivot < num_layers`.  (The
spec's second failure mode — an architecture whose layers cannot be
reconfigured for cross-attention — is about layer internals and is not
modelled; layers are abstract here.) -/
def slice_transformers {α : Type} (layers : List α) (pivot : ℕ) :
    Except ConfigurationError (List α × List α) :=
  if 0 < pivot ∧ pivot < layers.length then
    .ok (layers.take pivot, layers.drop pivot)
  else
    .error .invalidPivot

/-! ### Training-harness glue (`DpsaLightningModule`) -/

/-- `torch.argmax(v, dim=-1)` on one row: index of the (first) maximal
entry. -/
def argmaxIdx (v : Vec) : ℕ :=
  (List.range v.length).foldl (fun best i => if v.getD best 0 < v.getD i 0 then i else best) 0

/-- The accuracy computation of `DpsaLightningModule._metric_forward`
(src/core/model.py lines 133–135):
`prediction = argmax(logits, dim=-1)`;
`accuracy = (prediction == label).float().mean()`, i.e. the sum of the 0/1
indicator tensor divided by its element count.  Labels are the batch's
integer labels after `label.long()`. -/
def metricAccuracy (logits : List Vec) (labels : List ℤ) : ℚ :=
  let prediction := logits.map (fun row => (argmaxIdx row : ℤ))
  let eqv := List.zipWith (fun p l => if p = l then (1 : ℚ) else 0) prediction labels
  eqv.sum / eqv.length

/-- The spec's description of the same metric: the mean over examples of
the indicator `argmax(logits row) == label`. -/
def indicatorMeanAccuracy (logits : List Vec) (labels : List ℤ) : ℚ :=
  ((List.zipWith (fun row l => decide ((argmaxIdx row : ℤ) = l)) logits labels).count true : ℚ)
    / logits.length

/-- The optimizers the harness can construct. -/
inductive OptimizerKind where
  | adam : OptimizerKind
  deriving DecidableEq

/-- `OPTMIZER_DIC = {"Adam": optim.Adam}` (src/core/model.py line 8). -/
def OPTMIZER_DIC : List (String × OptimizerKind) := [("Adam", .adam)]

/-- The scheduler built by `configure_optimizers`:
`optim.lr_scheduler.ReduceLROnPlateau(optimizer, "min", factor, patience)`
— a plateau-triggered learning-rate reduction. -/
structure ReduceLROnPlateau where
  mode : String
  factor : ℚ
  patience : ℕ
  deriving DecidableEq

/-- The dictionary returned by `configure_optimizers`. -/
structure OptimizerSetup where
  optimizer : OptimizerKind
  lr : ℚ
  lr_scheduler : ReduceLROnPlateau
  monitor : String
  deriving DecidableEq

/-- The harness hyper-parameters consumed by `configure_optimizers`. -/
structure HarnessHp where
  learning_rate : ℚ
  lr_factor : ℚ
  lr_schedule_patience : ℕ
  optimizer_name : String

/-- `DpsaLightningModule.configure_optimizers` (src/core/model.py lines
98–110): `OPTMIZER_DIC.get(self.optimizer_name, optim.Adam)` instantiated
at `learning_rate`, paired with a `ReduceLROnPlateau("min", lr_factor,
lr_schedule_patience)` scheduler monitored on `"val_loss"`. -/
def configure_optimizers (hp : HarnessHp) : OptimizerSetup :=
  { optimizer := (OPTMIZER_DIC.lookup hp.optimizer_name).getD .adam
    lr := hp.learning_rate
    lr_scheduler :=
      { mode := "min", factor := hp.lr_factor, patience := hp.lr_schedule_patience }
    monitor := "val_loss" }

/-- The dictionary returned (and logged) by
`DpsaLightningModule.training_step`, keyed by metric name, for a batch
whose `_metric_forward` produced `loss` and `accuracy`. -/
def training_step_output (loss accuracy : ℚ) : List (String × ℚ) :=
  [("loss", loss), ("train_accuracy", accuracy)]

/-- The dictionary returned (and logged) by
`DpsaLightningModule.validation_step` — note the source's key is the
misspelled `"val_accucary"`. -/
def validation_step_output (loss accuracy : ℚ) : List (String × ℚ) :=
  [("val_loss", loss), ("val_accucary", accuracy)]

/-- The dictionary returned (and logged) by
`DpsaLightningModule.test_step`. -/
def test_step_output (loss accuracy : ℚ) : List (String × ℚ) :=
  [("test_loss", loss), ("test_accuracy", accuracy)]

/-- A placeholder GRU layer used only as the default for `getLastD`. -/
def gruCellDefault : GRUCellP :=
  ⟨[], [], [], [], [], [], [], [], [], [], [], []⟩

/-! ### Concrete instances used by the witness theorems -/

/-- A concrete one-layer, hidden-size-1 GRU cell. -/
def gruCellW : GRUCellP :=
  ⟨[[1]], [[1]], [[1]], [[1]], [[1]], [[1]], [0], [0], [0], [0], [0], [0]⟩

/-- A concrete model instance (hidden size 1, one reducer layer, identity
activations and dropout, two output classes). -/
def dpsaMW : DpsaModel where
  base_model := fun ids _ => ids.map (fun row => row.map (fun i => [(i : ℚ)]))
  cross_model := fun q _ _ => q
  dropout := fun t => t
  sigmaF := fun q => q
  tanhF := fun q => q
  gruCells := [gruCellW]
  gruInterDrop := fun v => v
  gruH0 := [0]
  linear_weight := [[1, 0], [0, 1]]
  linear_bias := [0, 0]

/-- A concrete (batch 1, seq_len 2, hidden 1) hidden-state tensor. -/
def tensorW : Tensor3 := [[[1], [2]]]

/-- Concrete harness hyper-parameters with an unrecognized optimizer name. -/
def hpW : HarnessHp :=
  { learning_rate := 1, lr_factor := 1 / 2, lr_schedule_patience := 2,
    optimizer_name := "SGD" }

/-! ### Supporting lemmas -/

theorem getLastD_indep {α : Type} (l : List α) (d₁ d₂ : α) (h : l ≠ []) :
    l.getLastD d₁ = l.getLastD d₂ := by
  cases l with
  | nil => exact absurd rfl h
  | cons a l => rw [List.getLastD_cons, List.getLastD_cons]

theorem getLastD_mem {α : Type} (l : List α) (d : α) (h : l ≠ []) :
    l.getLastD d ∈ l := by
  induction l generalizing d with
  | nil => exact absurd rfl h
  | cons a l ih =>
    rw [List.getLastD_cons]
    cases l with
    | nil => simp
    | cons b l' => exact List.Mem.tail a (ih a (by simp))

theorem getLastD_map {α β : Type} (f : α → β) (l : List α) (d : α) :
    (l.map f).getLastD (f d) = f (l.getLastD d) := by
  induction l generalizing d with
  | nil => rfl
  | cons a l ih =>
    cases l with
    | nil => rfl
    | cons b l' => simpa [List.getLastD_cons] using ih a

theorem getLastD_eq_getD (l : HSeq) (h : l ≠ []) :
    l.getLastD [] = l.getD (l.length - 1) [] := by
  induction l with
  | nil => exact absurd rfl h
  | cons a l ih =>
    cases l with
    | nil => rfl
    | cons b l' =>
      rw [List.getLastD_cons, getLastD_indep _ _ [] (by simp), ih (by simp)]
      simp [List.getD]

theorem runLayer_length (step : Vec → Vec → Vec) (h : Vec) (xs : HSeq) :
    (runLayer step h xs).length = xs.length := by
  induction xs generalizing h with
  | nil => rfl
  | cons x xs ih => simp [runLayer, ih]

theorem runLayer_getLastD (step : Vec → Vec → Vec) (h : Vec) (xs : HSeq)
    (hxs : xs ≠ []) :
    (runLayer step h xs).getLastD [] = layerFinal step h xs := by
  induction xs generalizing h with
  | nil => exact absurd rfl hxs
  | cons x xs ih =>
    cases xs with
    | nil => simp [runLayer, layerFinal]
    | cons x₂ xs' =>
      rw [show runLayer step h (x :: x₂ :: xs') =
            step h x :: runLayer step (step h x) (x₂ :: xs') from rfl,
          List.getLastD_cons,
          getLastD_indep _ _ [] (by simp [runLayer]),
          ih (step h x) (by simp)]
      simp [layerFinal]

theorem runStack_length (interDrop : Vec → Vec) (h0 : Vec) (cs : List (Vec → Vec → Vec))
    (xs : HSeq) : (runStack interDrop h0 cs xs).length = xs.length := by
  induction cs generalizing xs with
  | nil => rfl
  | cons c cs ih =>
    cases cs with
    | nil => simp [runStack, runLayer_length]
    | cons c₂ cs' =>
      rw [show runStack interDrop h0 (c :: c₂ :: cs') xs =
            runStack interDrop h0 (c₂ :: cs') ((runLayer c h0 xs).map interDrop) from rfl,
          ih]
      simp [runLayer_length]

theorem runStack_lastStep (interDrop : Vec → Vec) (h0 : Vec) (dflt : Vec → Vec → Vec)
    (cs : List (Vec → Vec → Vec)) (c : Vec → Vec → Vec) (xs : HSeq) (hxs : xs ≠ []) :
    lastStep (runStack interDrop h0 (c :: cs) xs)
      = layerFinal ((c :: cs).getLastD dflt) h0 (stackTopIn interDrop h0 (c :: cs) xs) := by
  induction cs generalizing c xs with
  | nil => simpa [lastStep, runStack, stackTopIn] using runLayer_getLastD c h0 xs hxs
  | cons c₂ cs' ih =>
    have hne : (runLayer c h0 xs).map interDrop ≠ [] := by
      have := runLayer_length c h0 xs
      cases hx : runLayer c h0 xs with
      | nil => rw [hx] at this; simp at this; exact absurd (List.eq_nil_of_length_eq_zero this.symm) hxs
      | cons a l => simp [hx]
    rw [show runStack interDrop h0 (c :: c₂ :: cs') xs =
          runStack interDrop h0 (c₂ :: cs') ((runLayer c h0 xs).map interDrop) from rfl,
        show stackTopIn interDrop h0 (c :: c₂ :: cs') xs =
          stackTopIn interDrop h0 (c₂ :: cs') ((runLayer c h0 xs).map interDrop) from rfl,
        ih c₂ _ hne,
        show (c :: c₂ :: cs').getLastD dflt = (c₂ :: cs').getLastD c from by
          rw [List.getLastD_cons],
        getLastD_indep (c₂ :: cs') c dflt (by simp)]

theorem vadd_length (a b : Vec) : (vadd a b).length = min a.length b.length := by
  simp [vadd]

theorem vmul_length (a b : Vec) : (vmul a b).length = min a.length b.length := by
  simp [vmul]

theorem matVec_length (w : List Vec) (x : Vec) : (matVec w x).length = w.length := by
  simp [matVec]

theorem gruCellStep_length (sg th : ℚ → ℚ) (c : GRUCellP) (hidden : ℕ)
    (hc : c.wf hidden) (h x : Vec) (hh : h.length = hidden) :
    (gruCellStep sg th c h x).length = hidden := by
  obtain ⟨e1, e2, e3, e4, e5, e6, e7, e8, e9, e10, e11, e12⟩ := hc
  simp only [gruCellStep, gruGateZ, gruGateN, gruGateR, vadd_length, vmul_length,
    matVec_length, List.length_map, e1, e2, e3, e4, e5, e6, e7, e8, e9, e10, e11, e12,
    hh, min_self]

theorem layerFinal_length (sg th : ℚ → ℚ) (c : GRUCellP) (hidden : ℕ)
    (hc : c.wf hidden) (xs : HSeq) (h : Vec) (hh : h.length = hidden) :
    (layerFinal (gruCellStep sg th c) h xs).length = hidden := by
  induction xs generalizing h with
  | nil => simpa [layerFinal] using hh
  | cons x xs ih =>
    rw [show layerFinal (gruCellStep sg th c) h (x :: xs) =
          layerFinal (gruCellStep sg th c) (gruCellStep sg th c h x) xs from rfl]
    exact ih _ (gruCellStep_length sg th c hidden hc h x hh)

/-! ### Claim theorems -/

/-- C1: calling `forward` with the premise and hypothesis arguments swapped
(ids and masks together) produces exactly the logits obtained by applying
the classifier head to the two pooled vectors of the original orientation
concatenated in the opposite order: the hypothesis-attending-to-premise
pooled vector first, the premise-attending-to-hypothesis pooled vector
second. -/
theorem forward_swap_symmetry (m : DpsaModel) (pIds pMask hIds hMask : IdsT) :
    m.forward hIds hMask pIds pMask
      = m.classifierHead (catLast (m.crossPooled hIds hMask pIds pMask)
          (m.crossPooled pIds pMask hIds hMask)) := rfl

/-- C2: in every forward pass the two pooled vectors are concatenated along
the feature axis with the premise-attending-to-hypothesis vector first and
the hypothesis-attending-to-premise vector second, and the concatenation is
passed through the single affine classifier head (`self.linear`) to produce
the logits. -/
theorem forward_concat_order (m : DpsaModel) (pIds pMask hIds hMask : IdsT) :
    m.forward pIds pMask hIds hMask
      = (catLast (m.crossPooled pIds pMask hIds hMask)
          (m.crossPooled hIds hMask pIds pMask)).map
            (linearApply m.linear_weight m.linear_bias) := rfl

/-- C9: a forward pass mutates no model parameter: running `forward` as a
state transformer returns the model unchanged — every component's
parameters (base stack, cross stack, dropout, reducer, classifier head) are
identical before and after the call, and the first component is the plain
forward result. -/
theorem forward_no_param_mutation (m : DpsaModel) (pIds pMask hIds hMask : IdsT) :
    (m.forwardRun pIds pMask hIds hMask).2.base_model = m.base_model
    ∧ (m.forwardRun pIds pMask hIds hMask).2.cross_model = m.cross_model
    ∧ (m.forwardRun pIds pMask hIds hMask).2.dropout = m.dropout
    ∧ (m.forwardRun pIds pMask hIds hMask).2.gruCells = m.gruCells
    ∧ (m.forwardRun pIds pMask hIds hMask).2.gruH0 = m.gruH0
    ∧ (m.forwardRun pIds pMask hIds hMask).2.linear_weight = m.linear_weight
    ∧ (m.forwardRun pIds pMask hIds hMask).2.linear_bias = m.linear_bias
    ∧ (m.forwardRun pIds pMask hIds hMask).2 = m
    ∧ (m.forwardRun pIds pMask hIds hMask).1 = m.forward pIds pMask hIds hMask :=
  ⟨rfl, rfl, rfl, rfl, rfl, rfl, rfl, rfl, rfl⟩

/-- C4: for every valid pivot `0 < pivot < num_layers`, the splitter
returns `base_layers = layers[0:pivot)` and `cross_layers =
layers[pivot:end)`; the two slices cover the whole layer list in the
original order with no gap, have lengths `pivot` and `num_layers - pivot`,
and (for distinct layer objects) are disjoint with no duplicates. -/
theorem slice_transformers_partition {α : Type} (layers : List α) (pivot : ℕ)
    (h1 : 0 < pivot) (h2 : pivot < layers.length) :
    slice_transformers layers pivot = .ok (layers.take pivot, layers.drop pivot)
    ∧ layers.take pivot ++ layers.drop pivot = layers
    ∧ (layers.take pivot).length = pivot
    ∧ (layers.drop pivot).length = layers.length - pivot
    ∧ (layers.Nodup → (layers.take pivot).Nodup ∧ (layers.drop pivot).Nodup
        ∧ (layers.take pivot).Disjoint (layers.drop pivot)) := by
  refine ⟨by simp [slice_transformers, h1, h2], List.take_append_drop _ _, ?_,
    List.length_drop _ _, ?_⟩
  · rw [List.length_take]
    omega
  · intro hnd
    rw [← List.take_append_drop pivot layers] at hnd
    exact List.nodup_append.mp hnd

/-- C4 witness: the partition property at a concrete four-layer list split
at pivot 2. -/
theorem slice_transformers_partition_witness :
    slice_transformers [10, 20, 30, 40] 2
        = .ok (([10, 20, 30, 40].take 2 : List ℕ), [10, 20, 30, 40].drop 2)
    ∧ ([10, 20, 30, 40] : List ℕ).take 2 ++ [10, 20, 30, 40].drop 2 = [10, 20, 30, 40]
    ∧ (([10, 20, 30, 40] : List ℕ).take 2).length = 2
    ∧ (([10, 20, 30, 40] : List ℕ).drop 2).length = ([10, 20, 30, 40] : List ℕ).length - 2
    ∧ (([10, 20, 30, 40] : List ℕ).Nodup →
        (([10, 20, 30, 40] : List ℕ).take 2).Nodup
        ∧ (([10, 20, 30, 40] : List ℕ).drop 2).Nodup
        ∧ (([10, 20, 30, 40] : List ℕ).take 2).Disjoint ([10, 20, 30, 40].drop 2)) :=
  slice_transformers_partition [10, 20, 30, 40] 2 (by decide) (by decide)

/-- C6: constructing the model with `pivot = 0` or `pivot = num_layers`
makes the splitter fail with `ConfigurationError`; no layer partition (and
hence no model instance) is produced. -/
theorem slice_transformers_invalid_pivot {α : Type} (layers : List α) (pivot : ℕ)
    (h : pivot = 0 ∨ pivot = layers.length) :
    slice_transformers layers pivot = .error ConfigurationError.invalidPivot := by
  rcases h with h | h <;> simp [slice_transformers, h]

/-- C6 witness: pivot 0 on a concrete three-layer list fails with
`ConfigurationError`. -/
theorem slice_transformers_invalid_pivot_witness :
    slice_transformers ([1, 2, 3] : List ℕ) 0 = .error ConfigurationError.invalidPivot :=
  slice_transformers_invalid_pivot [1, 2, 3] 0 (Or.inl rfl)

/-- C3: for every batch of non-empty hidden-state sequences, the reducer's
pooled output (`self.reducer(x)[0][:, -1, :]`) is, per example, the top
recurrent layer's state after folding over every sequence position —
equivalently the output sequence indexed at `seq_len - 1` (last-step
pooling, not mean/max); its shape is (batch, hidden_size).  The reducer's
embedding consumes the hidden states alone — the source passes no attention
mask to `self.reducer`, so padding positions enter the fold like content
positions. -/
theorem reducer_last_step_pooling (m : DpsaModel) (hidden : ℕ)
    (hwf : m.reducerWF hidden) (hcells : m.gruCells ≠ [])
    (t : Tensor3) (ht : ∀ s ∈ t, s ≠ []) :
    m.reducerPooled t
      = t.map (fun s =>
          layerFinal
            (gruCellStep m.sigmaF m.tanhF (m.gruCells.getLastD gruCellDefault))
            m.gruH0 (stackTopIn m.gruInterDrop m.gruH0 m.gruLayers s))
    ∧ (∀ s ∈ t, lastStep (runStack m.gruInterDrop m.gruH0 m.gruLayers s)
          = (runStack m.gruInterDrop m.gruH0 m.gruLayers s).getD (s.length - 1) [])
    ∧ (m.reducerPooled t).length = t.length
    ∧ ∀ v ∈ m.reducerPooled t, v.length = hidden := by
  obtain ⟨hwfc, hh0⟩ := hwf
  obtain ⟨c0, cs0, hcs⟩ : ∃ c0 cs0, m.gruLayers = c0 :: cs0 := by
    cases hgc : m.gruCells with
    | nil => exact absurd hgc hcells
    | cons a l =>
      exact ⟨gruCellStep m.sigmaF m.tanhF a, l.map (gruCellStep m.sigmaF m.tanhF),
        by simp [DpsaModel.gruLayers, hgc]⟩
  have hmap : m.gruLayers.getLastD (gruCellStep m.sigmaF m.tanhF gruCellDefault)
      = gruCellStep m.sigmaF m.tanhF (m.gruCells.getLastD gruCellDefault) := by
    rw [show m.gruLayers = m.gruCells.map (gruCellStep m.sigmaF m.tanhF) from rfl]
    exact getLastD_map _ _ _
  have hcore : ∀ s : HSeq, s ≠ [] →
      lastStep (runStack m.gruInterDrop m.gruH0 m.gruLayers s)
        = layerFinal
            (gruCellStep m.sigmaF m.tanhF (m.gruCells.getLastD gruCellDefault))
            m.gruH0 (stackTopIn m.gruInterDrop m.gruH0 m.gruLayers s) := by
    intro s hs
    have h1 := runStack_lastStep m.gruInterDrop m.gruH0
      (gruCellStep m.sigmaF m.tanhF gruCellDefault) cs0 c0 s hs
    rw [hcs, h1, ← hcs, hmap]
  refine ⟨?_, ?_, ?_, ?_⟩
  · rw [show m.reducerPooled t
        = t.map (fun s => lastStep (runStack m.gruInterDrop m.gruH0 m.gruLayers s)) from by
      simp [DpsaModel.reducerPooled, DpsaModel.reducerOutput, List.map_map]]
    exact List.map_congr_left fun s hs => hcore s (ht s hs)
  · intro s hs
    have hne : runStack m.gruInterDrop m.gruH0 m.gruLayers s ≠ [] := by
      have hl := runStack_length m.gruInterDrop m.gruH0 m.gruLayers s
      intro hnil
      rw [hnil] at hl
      exact (ht s hs) (List.eq_nil_of_length_eq_zero hl.symm)
    rw [show lastStep (runStack m.gruInterDrop m.gruH0 m.gruLayers s)
          = (runStack m.gruInterDrop m.gruH0 m.gruLayers s).getLastD [] from rfl,
        getLastD_eq_getD _ hne, runStack_length]
  · simp [DpsaModel.reducerPooled, DpsaModel.reducerOutput]
  · intro v hv
    simp only [DpsaModel.reducerPooled, DpsaModel.reducerOutput, List.map_map,
      List.mem_map] at hv
    obtain ⟨s, hs, hv⟩ := hv
    rw [← hv, Function.comp_apply, show lastStep (runStack m.gruInterDrop m.gruH0
      m.gruLayers s) = lastStep (runStack m.gruInterDrop m.gruH0 m.gruLayers s) from rfl,
      hcore s (ht s hs)]
    exact layerFinal_length m.sigmaF m.tanhF _ hidden
      (hwfc _ (getLastD_mem m.gruCells gruCellDefault hcells)) _ _ hh0

/-- C3 witness: the pooling equalities and the (batch, hidden_size) shape
at a concrete one-layer, hidden-size-1 model on a batch of one sequence of
length 2. -/
theorem reducer_last_step_pooling_witness :
    dpsaMW.reducerPooled tensorW
      = tensorW.map (fun s =>
          layerFinal
            (gruCellStep dpsaMW.sigmaF dpsaMW.tanhF (dpsaMW.gruCells.getLastD gruCellDefault))
            dpsaMW.gruH0 (stackTopIn dpsaMW.gruInterDrop dpsaMW.gruH0 dpsaMW.gruLayers s))
    ∧ (∀ s ∈ tensorW, lastStep (runStack dpsaMW.gruInterDrop dpsaMW.gruH0 dpsaMW.gruLayers s)
          = (runStack dpsaMW.gruInterDrop dpsaMW.gruH0 dpsaMW.gruLayers s).getD (s.length - 1) [])
    ∧ (dpsaMW.reducerPooled tensorW).length = tensorW.length
    ∧ ∀ v ∈ dpsaMW.reducerPooled tensorW, v.length = 1 :=
  reducer_last_step_pooling dpsaMW 1
    (by
      refine ⟨?_, rfl⟩
      intro c hc
      simp only [dpsaMW, List.mem_singleton] at hc
      subst hc
      exact ⟨rfl, rfl, rfl, rfl, rfl, rfl, rfl, rfl, rfl, rfl, rfl, rfl⟩)
    (by simp [dpsaMW])
    tensorW
    (by
      intro s hs
      simp only [tensorW, List.mem_singleton] at hs
      subst hs
      simp)

theorem bjoin_of_ne (a b : ℕ) (h1 : a ≠ b) (h2 : a ≠ 1) (h3 : b ≠ 1) :
    bjoin a b = none := by
  simp [bjoin, h1, h2, h3]

theorem baseShape_mismatch_batch (hidden : ℕ) (ids mask : Shape2)
    (h : mask.1 ≠ ids.1 ∧ mask.1 ≠ 1 ∧ ids.1 ≠ 1) :
    baseShape hidden ids mask = .error ShapeError.mismatch := by
  obtain ⟨h1, h2, h3⟩ := h
  unfold baseShape
  rw [bjoin_of_ne ids.1 mask.1 (Ne.symm h1) h3 h2]

theorem baseShape_mismatch_len (hidden : ℕ) (ids mask : Shape2)
    (h : mask.2 ≠ ids.2 ∧ mask.2 ≠ 1) :
    baseShape hidden ids mask = .error ShapeError.mismatch := by
  obtain ⟨h1, h2⟩ := h
  unfold baseShape
  cases hb : bjoin ids.1 mask.1 with
  | none => rfl
  | some b => simp [h1, h2]

theorem baseShape_self (hidden : ℕ) (s : Shape2) :
    baseShape hidden s s = .ok (s.1, s.2, hidden) := by
  simp [baseShape, bjoin]

/-- C5 (amended): a forward call fails with `ShapeError` when its paired
shapes disagree beyond what broadcasting reconciles: an id/mask shape
disagreement on either side in a dimension where neither differing size is
1, or (masks matching their ids) premise and hypothesis batch sizes that
differ with both greater than 1, such as the spec's batch 2 vs batch 3
scenario.  Mismatches in which one side's size is 1 are broadcast by the
tensor library and do return logits, so the original unconditional claim
fails (see the counterexample). -/
theorem forward_shape_mismatch (hidden numClass : ℕ)
    (pIds pMask hIds hMask : Shape2)
    (hmis : (pMask.1 ≠ pIds.1 ∧ pMask.1 ≠ 1 ∧ pIds.1 ≠ 1)
      ∨ (pMask.2 ≠ pIds.2 ∧ pMask.2 ≠ 1)
      ∨ (hMask.1 ≠ hIds.1 ∧ hMask.1 ≠ 1 ∧ hIds.1 ≠ 1)
      ∨ (hMask.2 ≠ hIds.2 ∧ hMask.2 ≠ 1)
      ∨ (pIds = pMask ∧ hIds = hMask ∧ pIds.1 ≠ hIds.1 ∧ pIds.1 ≠ 1 ∧ hIds.1 ≠ 1)) :
    forwardShape hidden numClass pIds pMask hIds hMask
      = .error ShapeError.mismatch := by
  rcases hmis with h | h | h | h | h
  · unfold forwardShape
    rw [baseShape_mismatch_batch hidden pIds pMask h]
  · unfold forwardShape
    rw [baseShape_mismatch_len hidden pIds pMask h]
  · unfold forwardShape
    cases hb : baseShape hidden pIds pMask with
    | error e => cases e; rfl
    | ok ph => rw [baseShape_mismatch_batch hidden hIds hMask h]
  · unfold forwardShape
    cases hb : baseShape hidden pIds pMask with
    | error e => cases e; rfl
    | ok ph => rw [baseShape_mismatch_len hidden hIds hMask h]
  · obtain ⟨hpm, hhm, hne, hp1, hh1⟩ := h
    subst hpm
    subst hhm
    simp [forwardShape, baseShape_self, crossShape,
      bjoin_of_ne pIds.1 hIds.1 hne hp1 hh1]

/-- C5 witness: the spec's scenario — premise batch 2 against hypothesis
batch 3, masks matching their ids — fails with `ShapeError`. -/
theorem forward_shape_mismatch_witness :
    forwardShape 768 3 (2, 10) (2, 10) (3, 8) (3, 8)
      = .error ShapeError.mismatch :=
  forward_shape_mismatch 768 3 (2, 10) (2, 10) (3, 8) (3, 8)
    (Or.inr (Or.inr (Or.inr (Or.inr ⟨rfl, rfl, by decide, by decide, by decide⟩))))

/-- C5 counterexample: premise batch 2 against hypothesis batch 1 is a
mismatched batch dimension, yet the library broadcasts the size-1 side, so
the forward pass returns a (2, num_class) logits shape instead of failing
with `ShapeError` — refuting the original claim that every batch mismatch
fails. -/
theorem forward_shape_mismatch_counterexample :
    ((2, 10) : Shape2).1 ≠ ((1, 8) : Shape2).1
    ∧ forwardShape 768 3 (2, 10) (2, 10) (1, 8) (1, 8) = .ok (2, 3) :=
  ⟨by decide, rfl⟩

theorem indicator_sum_eq_count {α β : Type} (p : α → β → Prop)
    [∀ a b, Decidable (p a b)] (xs : List α) (ys : List β) :
    (List.zipWith (fun a b => if p a b then (1 : ℚ) else 0) xs ys).sum
      = (((List.zipWith (fun a b => decide (p a b)) xs ys).count true : ℕ) : ℚ) := by
  induction xs generalizing ys with
  | nil => simp
  | cons a xs ih =>
    cases ys with
    | nil => simp
    | cons b ys =>
      simp only [List.zipWith_cons_cons, List.sum_cons, List.count_cons, ih ys]
      by_cases hp : p a b
      · simp [hp, add_comm]
      · simp [hp]

/-- C7: the harness's accuracy is the mean over the batch of the indicator
(argmax of the logits row equals the integer label); on logits
`[[2,1,0],[0,1,2]]` with labels `[0,2]` it computes 1. -/
theorem metric_accuracy_indicator_mean (logits : List Vec) (labels : List ℤ)
    (hlen : logits.length = labels.length) :
    metricAccuracy logits labels = indicatorMeanAccuracy logits labels
    ∧ metricAccuracy [[2, 1, 0], [0, 1, 2]] [0, 2] = 1 := by
  constructor
  · unfold metricAccuracy indicatorMeanAccuracy
    simp only [List.zipWith_map_left]
    rw [indicator_sum_eq_count (fun (row : Vec) (l : ℤ) => (argmaxIdx row : ℤ) = l)
      logits labels]
    simp [List.length_zipWith, hlen]
  · unfold metricAccuracy
    norm_num [argmaxIdx, List.range_succ]

/-- C7 witness: the mean-of-indicator identity and the concrete accuracy at
the spec's example batch. -/
theorem metric_accuracy_indicator_mean_witness :
    metricAccuracy [[2, 1, 0], [0, 1, 2]] [0, 2]
        = indicatorMeanAccuracy [[2, 1, 0], [0, 1, 2]] [0, 2]
    ∧ metricAccuracy [[2, 1, 0], [0, 1, 2]] [0, 2] = 1 :=
  metric_accuracy_indicator_mean [[2, 1, 0], [0, 1, 2]] [0, 2] (by decide)

/-- C8: `configure_optimizers` looks the optimizer up by name in the fixed
registry `OPTMIZER_DIC`, falling back to Adam for every unrecognized name,
and always pairs the optimizer with a `ReduceLROnPlateau` scheduler in
`"min"` mode (built from `lr_factor` and `lr_schedule_patience`) monitored
on `"val_loss"`. -/
theorem configure_optimizers_fallback (hp : HarnessHp)
    (hname : hp.optimizer_name ∉ OPTMIZER_DIC.map Prod.fst) :
    (configure_optimizers hp).optimizer = OptimizerKind.adam
    ∧ ∀ hp₂ : HarnessHp,
        (configure_optimizers hp₂).monitor = "val_loss"
        ∧ (configure_optimizers hp₂).lr_scheduler.mode = "min"
        ∧ (configure_optimizers hp₂).lr_scheduler.factor = hp₂.lr_factor
        ∧ (configure_optimizers hp₂).lr_scheduler.patience = hp₂.lr_schedule_patience := by
  refine ⟨?_, fun hp₂ => ⟨rfl, rfl, rfl, rfl⟩⟩
  have hne : hp.optimizer_name ≠ "Adam" := by simpa [OPTMIZER_DIC] using hname
  simp [configure_optimizers, OPTMIZER_DIC, List.lookup, hne]

/-- C8 witness: the unrecognized name "SGD" falls back to Adam, with the
plateau scheduler monitored on validation loss. -/
theorem configure_optimizers_fallback_witness :
    (configure_optimizers hpW).optimizer = OptimizerKind.adam
    ∧ ∀ hp₂ : HarnessHp,
        (configure_optimizers hp₂).monitor = "val_loss"
        ∧ (configure_optimizers hp₂).lr_scheduler.mode = "min"
        ∧ (configure_optimizers hp₂).lr_scheduler.factor = hp₂.lr_factor
        ∧ (configure_optimizers hp₂).lr_scheduler.patience = hp₂.lr_schedule_patience :=
  configure_optimizers_fallback hpW (by decide)

/-- C10: the three phase step functions publish the accuracy under the keys
`"train_accuracy"`, `"val_accucary"` (the source's misspelling) and
`"test_accuracy"`; the validation output carries no `"val_accuracy"` key. -/
theorem step_output_metric_keys (loss accuracy : ℚ) :
    (training_step_output loss accuracy).lookup "train_accuracy" = some accuracy
    ∧ (validation_step_output loss accuracy).lookup "val_accucary" = some accuracy
    ∧ (test_step_output loss accuracy).lookup "test_accuracy" = some accuracy
    ∧ (validation_step_output loss accuracy).lookup "val_accuracy" = none
    ∧ (validation_step_output loss accuracy).map Prod.fst
        = ["val_loss", "val_accucary"] := by
  refine ⟨?_, ?_, ?_, ?_, rfl⟩ <;>
    simp [training_step_output, validation_step_output, test_step_output, List.lookup]
